import Mathlib

/-!
Verification of the on-chain core of the fakeNewsDetection_Blockchain
repository: the two Solidity contracts `NewsRegistry` and
`PublisherRegistry`, shallowly embedded in Lean.

Modelling conventions:
* addresses and 32-byte content hashes are `Nat` (the zero address is `0`);
* Solidity `mapping`s are Lean functions with the zero-initialised default;
* the `hasVoted` double mapping `bytes32 => address => bool` is represented
  by its finite support: for each content hash, the `Finset` of addresses
  whose entry is `true` (`NewsState.hasVoted` is the boolean lookup used by
  the contract code);
* `block.timestamp` is an explicit `now : Nat` argument; committed ledger
  transitions have a strictly positive timestamp;
* a `require` failure is an `Except.error` carrying the revert reason, and
  leaves the pre-state untouched (`applyOp` returns the old state);
* emitted events are accumulated in an `events` list on each contract state.
-/

namespace NewsChain

/-- Embedding of `enum Status { UnderReview, VerifiedTrue, MarkedFake, Disputed }`. -/
inductive Status where
  | UnderReview
  | VerifiedTrue
  | MarkedFake
  | Disputed
deriving DecidableEq, Repr

/-- The `Article` struct of `NewsRegistry`. -/
structure Article where
  contentHash : Nat
  uri : String
  publisher : Nat
  submitter : Nat
  createdAt : Nat
  status : Status
  yesVotes : Nat
  noVotes : Nat
  finalized : Bool
deriving DecidableEq, Repr

/-- The zero-initialised `Article` a Solidity mapping returns for an
absent key. -/
def defaultArticle : Article :=
  { contentHash := 0, uri := "", publisher := 0, submitter := 0,
    createdAt := 0, status := .UnderReview, yesVotes := 0, noVotes := 0,
    finalized := false }

/-- Revert reasons of both contracts (the spec's error taxonomy). -/
inductive Err where
  | DuplicateSubmission
  | NotFound
  | AlreadyFinalized
  | DuplicateVote
  | Unauthorized
  | AlreadyTrusted
  | NotTrusted
deriving DecidableEq, Repr

/-- Events emitted by the two contracts. -/
inductive Event where
  | Submitted (contentHash submitter : Nat) (uri : String)
  | PublisherAutoVerified (contentHash : Nat)
  | Voted (contentHash voter : Nat) (support : Bool)
  | Finalized (contentHash : Nat) (finalStatus : Status)
  | PublisherAdded (publisher : Nat)
  | PublisherRemoved (publisher : Nat)
deriving DecidableEq, Repr

/-- State of the `PublisherRegistry` contract: the `Ownable` owner and the
`isTrusted` mapping, plus the emitted-event log. -/
structure PubState where
  owner : Nat
  isTrusted : Nat → Bool
  events : List Event

/-- The `PublisherRegistry` constructor: deployer becomes owner, mapping empty. -/
def PubState.init (deployer : Nat) : PubState :=
  { owner := deployer, isTrusted := fun _ => false, events := [] }

/-- Embedding of `addPublisher` (onlyOwner): requires the address not yet trusted. -/
def addPublisher (s : PubState) (caller p : Nat) : Except Err PubState :=
  if caller ≠ s.owner then .error .Unauthorized
  else if s.isTrusted p then .error .AlreadyTrusted
  else .ok { s with
    isTrusted := fun q => if q = p then true else s.isTrusted q,
    events := s.events ++ [.PublisherAdded p] }

/-- Embedding of `removePublisher` (onlyOwner): requires the address currently trusted. -/
def removePublisher (s : PubState) (caller p : Nat) : Except Err PubState :=
  if caller ≠ s.owner then .error .Unauthorized
  else if s.isTrusted p then
    .ok { s with
      isTrusted := fun q => if q = p then false else s.isTrusted q,
      events := s.events ++ [.PublisherRemoved p] }
  else .error .NotTrusted

/-- Embedding of `trustStatus`: public view wrapper over the mapping. -/
def trustStatus (s : PubState) (p : Nat) : Bool := s.isTrusted p

/-- State of the `NewsRegistry` contract. `voters ch` is the set of
addresses `v` with `hasVoted[ch][v] = true`. -/
structure NewsState where
  owner : Nat
  votingPeriod : Nat
  minVotes : Nat
  articles : Nat → Article
  voters : Nat → Finset Nat
  events : List Event

/-- Boolean lookup of the `hasVoted` double mapping. -/
def NewsState.hasVoted (s : NewsState) (ch v : Nat) : Bool :=
  decide (v ∈ s.voters ch)

/-- The `NewsRegistry` constructor (the `publisherRegistry` address itself is
resolved at call sites by passing the `PubState` to `submitArticle`). -/
def NewsState.init (deployer vp mv : Nat) : NewsState :=
  { owner := deployer, votingPeriod := vp, minVotes := mv,
    articles := fun _ => defaultArticle, voters := fun _ => ∅, events := [] }

/-- The field assignments of `submitArticle`: the stored struct after
`a.contentHash = ...; ...; a.status = Status.UnderReview` (vote counters
and the finalized flag keep their prior mapping values). -/
def newArticle (s : NewsState) (caller ch : Nat) (uri : String)
    (pubAddr now : Nat) : Article :=
  { contentHash := ch, uri := uri, publisher := pubAddr, submitter := caller,
    createdAt := now, status := .UnderReview,
    yesVotes := (s.articles ch).yesVotes, noVotes := (s.articles ch).noVotes,
    finalized := (s.articles ch).finalized }

/-- The trusted-publisher auto-verification condition of `submitArticle`:
`_publisher != address(0) && publisherRegistry.isTrusted(_publisher)`. -/
def autoVerifies (pubReg : PubState) (pubAddr : Nat) : Prop :=
  pubAddr ≠ 0 ∧ pubReg.isTrusted pubAddr = true

instance (pubReg : PubState) (pubAddr : Nat) :
    Decidable (autoVerifies pubReg pubAddr) := by
  unfold autoVerifies
  infer_instance

/-- State produced by a successful `submitArticle` call (the code after the
`require`): fields of the stored struct are assigned, then the trusted
publisher auto-verification branch runs. -/
def submitNew (pubReg : PubState) (s : NewsState) (caller ch : Nat)
    (uri : String) (pubAddr now : Nat) : NewsState :=
  if autoVerifies pubReg pubAddr then
    { s with
      articles := fun k =>
        if k = ch then
          { newArticle s caller ch uri pubAddr now with
            status := .VerifiedTrue, finalized := true }
        else s.articles k,
      events := s.events ++ [.PublisherAutoVerified ch, .Finalized ch .VerifiedTrue] }
  else
    { s with
      articles := fun k =>
        if k = ch then newArticle s caller ch uri pubAddr now else s.articles k,
      events := s.events ++ [.Submitted ch caller uri] }

/-- Embedding of `submitArticle(bytes32, string, address)`:
`require(a.createdAt == 0, "Already submitted")`, then create the record. -/
def submitArticle (pubReg : PubState) (s : NewsState) (caller ch : Nat)
    (uri : String) (pubAddr now : Nat) : Except Err NewsState :=
  if (s.articles ch).createdAt ≠ 0 then .error .DuplicateSubmission
  else .ok (submitNew pubReg s caller ch uri pubAddr now)

/-- The counter increment of `vote`: `yesVotes += 1` or `noVotes += 1`. -/
def countVote (a : Article) (support : Bool) : Article :=
  if support then { a with yesVotes := a.yesVotes + 1 }
  else { a with noVotes := a.noVotes + 1 }

/-- The finalization condition of `vote`, evaluated on the post-increment
article: `totalVotes >= minVotes && block.timestamp >= createdAt + votingPeriod`. -/
def shouldFinalize (s : NewsState) (a : Article) (now : Nat) : Bool :=
  decide (s.minVotes ≤ a.yesVotes + a.noVotes ∧ a.createdAt + s.votingPeriod ≤ now)

/-- The simple-majority verdict of the finalization branch of `vote`. -/
def verdict (a : Article) : Status :=
  if a.noVotes < a.yesVotes then .VerifiedTrue
  else if a.yesVotes < a.noVotes then .MarkedFake
  else .Disputed

/-- The finalization assignment of `vote`: set the verdict and the flag. -/
def finalizeArt (a : Article) : Article :=
  { a with status := verdict a, finalized := true }

/-- The stored article after a successful `vote` call: counter incremented,
then finalized when the quorum-and-window condition holds. -/
def votedArticle (s : NewsState) (ch : Nat) (support : Bool)
    (now : Nat) : Article :=
  if shouldFinalize s (countVote (s.articles ch) support) now
  then finalizeArt (countVote (s.articles ch) support)
  else countVote (s.articles ch) support

/-- State produced by a successful `vote` call (the code after the three
`require`s): mark the voter, count the vote, then run the finalization
check. -/
def voteNew (s : NewsState) (caller ch : Nat) (support : Bool)
    (now : Nat) : NewsState :=
  { s with
    articles := fun k => if k = ch then votedArticle s ch support now else s.articles k,
    voters := fun k => if k = ch then insert caller (s.voters k) else s.voters k,
    events := s.events ++ [.Voted ch caller support]
      ++ (if shouldFinalize s (countVote (s.articles ch) support) now
          then [.Finalized ch (votedArticle s ch support now).status] else []) }

/-- Embedding of `vote(bytes32, bool)`: the three `require`s, then the success path. -/
def vote (s : NewsState) (caller ch : Nat) (support : Bool)
    (now : Nat) : Except Err NewsState :=
  if (s.articles ch).createdAt = 0 then .error .NotFound
  else if (s.articles ch).finalized then .error .AlreadyFinalized
  else if s.hasVoted ch caller then .error .DuplicateVote
  else .ok (voteNew s caller ch support now)

/-- Embedding of `getArticle(bytes32)`: view function returning the stored struct
(zero-initialised when absent). -/
def getArticle (s : NewsState) (ch : Nat) : Article := s.articles ch

/-- Embedding of `setVotingParams(uint256, uint256)` (onlyOwner). -/
def setVotingParams (s : NewsState) (caller vp mv : Nat) : Except Err NewsState :=
  if caller ≠ s.owner then .error .Unauthorized
  else .ok { s with votingPeriod := vp, minVotes := mv }

/-- The deployed system: one `PublisherRegistry` and one `NewsRegistry`. -/
structure Sys where
  pub : PubState
  news : NewsState

/-- External transactions against the system. -/
inductive Op where
  | submit (caller ch : Nat) (uri : String) (pubAddr now : Nat)
  | castVote (caller ch : Nat) (support : Bool) (now : Nat)
  | setParams (caller vp mv : Nat)
  | addPub (caller p : Nat)
  | removePub (caller p : Nat)

/-- Ledger clocks of committed transitions are strictly positive. -/
def Op.timeOk : Op → Prop
  | .submit _ _ _ _ now => 0 < now
  | .castVote _ _ _ now => 0 < now
  | _ => True

/-- Apply one transaction; a reverted call leaves the state unchanged. -/
def applyOp (σ : Sys) : Op → Sys
  | .submit c ch u pb now =>
      match submitArticle σ.pub σ.news c ch u pb now with
      | .ok n => { σ with news := n }
      | .error _ => σ
  | .castVote c ch b now =>
      match vote σ.news c ch b now with
      | .ok n => { σ with news := n }
      | .error _ => σ
  | .setParams c vp mv =>
      match setVotingParams σ.news c vp mv with
      | .ok n => { σ with news := n }
      | .error _ => σ
  | .addPub c p =>
      match addPublisher σ.pub c p with
      | .ok ps => { σ with pub := ps }
      | .error _ => σ
  | .removePub c p =>
      match removePublisher σ.pub c p with
      | .ok ps => { σ with pub := ps }
      | .error _ => σ

/-- Apply a sequence of transactions in ledger order. -/
def applyOps (σ : Sys) (ops : List Op) : Sys := ops.foldl applyOp σ

/-- States reachable from a fresh deployment by committed transactions. -/
inductive Reachable : Sys → Prop where
  | init (pd nd vp mv : Nat) :
      Reachable ⟨PubState.init pd, NewsState.init nd vp mv⟩
  | step (σ : Sys) (op : Op) :
      Reachable σ → op.timeOk → Reachable (applyOp σ op)

/-- The state invariant of the registry: vote counters agree with the
cardinality of the recorded-voter set, a record absent per the
`createdAt == 0` sentinel is fully zero-initialised with no recorded
voters, and a finalized record exists. -/
def Inv (σ : Sys) : Prop :=
  ∀ ch : Nat,
    (σ.news.articles ch).yesVotes + (σ.news.articles ch).noVotes
        = (σ.news.voters ch).card
    ∧ ((σ.news.articles ch).createdAt = 0 →
        σ.news.articles ch = defaultArticle ∧ σ.news.voters ch = ∅)
    ∧ ((σ.news.articles ch).finalized = true → (σ.news.articles ch).createdAt ≠ 0)

/-- Extract the success state of a call, with a fallback for the error case
(used only to name concrete post-states of calls proved successful). -/
def okD {α : Type} (e : Except Err α) (d : α) : α :=
  match e with
  | .ok x => x
  | .error _ => d

/-- A deployed `PublisherRegistry` with owner `1`. -/
def pub0 : PubState := PubState.init 1

/-- State of `pub0` after the owner adds address `2` as a trusted publisher. -/
def pub1 : PubState := okD (addPublisher pub0 1 2) pub0

/-- A deployed `NewsRegistry` with owner `1`, `votingPeriod = 60`,
`minVotes = 1` (the deploy script's parameters). -/
def news0 : NewsState := NewsState.init 1 60 1

/-- State of `news0` after caller `7` submits hash `5` with no claimed publisher at
time `1`. -/
def news1 : NewsState := okD (submitArticle pub0 news0 7 5 "u" 0 1) news0

/-- State of `news1` after voter `8` votes yes on hash `5` at time `11`
(quorum met, window not yet elapsed). -/
def news2 : NewsState := okD (vote news1 8 5 true 11) news0

/-- State of `news2` after voter `9` votes yes on hash `5` at time `62`
(quorum met and window elapsed: finalizes). -/
def news3 : NewsState := okD (vote news2 9 5 true 62) news0

/-- State of `news0` after caller `7` submits hash `6` claiming trusted publisher `2`
at time `1` (auto-verified). -/
def newsT : NewsState := okD (submitArticle pub1 news0 7 6 "v" 2 1) news0


/-! ### Field computation lemmas -/

lemma countVote_yes_add_no (a : Article) (b : Bool) :
    (countVote a b).yesVotes + (countVote a b).noVotes = a.yesVotes + a.noVotes + 1 := by
  cases b <;> simp [countVote] <;> omega

lemma countVote_createdAt (a : Article) (b : Bool) :
    (countVote a b).createdAt = a.createdAt := by
  cases b <;> simp [countVote]

lemma countVote_finalized (a : Article) (b : Bool) :
    (countVote a b).finalized = a.finalized := by
  cases b <;> simp [countVote]

lemma finalizeArt_yes (a : Article) : (finalizeArt a).yesVotes = a.yesVotes := rfl

lemma finalizeArt_no (a : Article) : (finalizeArt a).noVotes = a.noVotes := rfl

lemma finalizeArt_createdAt (a : Article) : (finalizeArt a).createdAt = a.createdAt := rfl

lemma votedArticle_createdAt (s : NewsState) (ch : Nat) (b : Bool) (now : Nat) :
    (votedArticle s ch b now).createdAt = (s.articles ch).createdAt := by
  unfold votedArticle
  split <;> simp [finalizeArt_createdAt, countVote_createdAt]

lemma votedArticle_counts (s : NewsState) (ch : Nat) (b : Bool) (now : Nat) :
    (votedArticle s ch b now).yesVotes = (countVote (s.articles ch) b).yesVotes ∧
    (votedArticle s ch b now).noVotes = (countVote (s.articles ch) b).noVotes := by
  unfold votedArticle
  split <;> exact ⟨rfl, rfl⟩

lemma votedArticle_finalized (s : NewsState) (ch : Nat) (b : Bool) (now : Nat)
    (h : (s.articles ch).finalized = false) :
    (votedArticle s ch b now).finalized
      = shouldFinalize s (countVote (s.articles ch) b) now := by
  unfold votedArticle
  split <;> rename_i hf <;> simp [hf, finalizeArt, countVote_finalized, h]

lemma voteNew_articles_self (s : NewsState) (c ch : Nat) (b : Bool) (now : Nat) :
    (voteNew s c ch b now).articles ch = votedArticle s ch b now := by
  simp [voteNew]

lemma voteNew_articles_ne (s : NewsState) (c ch : Nat) (b : Bool) (now : Nat)
    (k : Nat) (hk : k ≠ ch) :
    (voteNew s c ch b now).articles k = s.articles k := by
  simp [voteNew, hk]

lemma voteNew_voters_self (s : NewsState) (c ch : Nat) (b : Bool) (now : Nat) :
    (voteNew s c ch b now).voters ch = insert c (s.voters ch) := by
  simp [voteNew]

lemma voteNew_voters_ne (s : NewsState) (c ch : Nat) (b : Bool) (now : Nat)
    (k : Nat) (hk : k ≠ ch) :
    (voteNew s c ch b now).voters k = s.voters k := by
  simp [voteNew, hk]

lemma submitNew_voters (pubReg : PubState) (s : NewsState) (c ch : Nat)
    (u : String) (pb now : Nat) :
    (submitNew pubReg s c ch u pb now).voters = s.voters := by
  unfold submitNew
  split <;> rfl

lemma submitNew_articles_ne (pubReg : PubState) (s : NewsState) (c ch : Nat)
    (u : String) (pb now : Nat) (k : Nat) (hk : k ≠ ch) :
    (submitNew pubReg s c ch u pb now).articles k = s.articles k := by
  unfold submitNew
  split <;> simp [hk]

lemma submitNew_articles_self (pubReg : PubState) (s : NewsState) (c ch : Nat)
    (u : String) (pb now : Nat) :
    (submitNew pubReg s c ch u pb now).articles ch
      = (if autoVerifies pubReg pb then
          { newArticle s c ch u pb now with status := .VerifiedTrue, finalized := true }
         else newArticle s c ch u pb now) := by
  unfold submitNew
  split <;> simp

/-! ### Guard elimination lemmas -/

lemma vote_eq_ok {s : NewsState} {c ch : Nat} {b : Bool} {now : Nat}
    {s' : NewsState} (h : vote s c ch b now = .ok s') :
    (s.articles ch).createdAt ≠ 0 ∧ (s.articles ch).finalized = false ∧
    s.hasVoted ch c = false ∧ s' = voteNew s c ch b now := by
  unfold vote at h
  split at h
  · exact Except.noConfusion h
  · split at h
    · exact Except.noConfusion h
    · split at h
      · exact Except.noConfusion h
      · rename_i h1 h2 h3
        injection h with h4
        exact ⟨h1, by simpa using h2, by simpa using h3, h4.symm⟩

lemma vote_ok_of_guards {s : NewsState} {c ch : Nat} (b : Bool) (now : Nat)
    (h1 : (s.articles ch).createdAt ≠ 0) (h2 : (s.articles ch).finalized = false)
    (h3 : s.hasVoted ch c = false) :
    vote s c ch b now = .ok (voteNew s c ch b now) := by
  simp [vote, h1, h2, h3]

lemma vote_err_finalized {s : NewsState} {c ch : Nat} (b : Bool) (now : Nat)
    (h1 : (s.articles ch).createdAt ≠ 0) (h2 : (s.articles ch).finalized = true) :
    vote s c ch b now = .error .AlreadyFinalized := by
  simp [vote, h1, h2]

lemma vote_err_of_hasVoted (s : NewsState) (c ch : Nat) (b : Bool) (now : Nat)
    (hv : s.hasVoted ch c = true) :
    ∃ e, vote s c ch b now = .error e := by
  unfold vote
  split
  · exact ⟨_, rfl⟩
  · split
    · exact ⟨_, rfl⟩
    · simp [hv]

lemma submit_eq_ok {pubReg : PubState} {s : NewsState} {c ch : Nat} {u : String}
    {pb now : Nat} {s' : NewsState}
    (h : submitArticle pubReg s c ch u pb now = .ok s') :
    (s.articles ch).createdAt = 0 ∧ s' = submitNew pubReg s c ch u pb now := by
  unfold submitArticle at h
  split at h
  · exact Except.noConfusion h
  · rename_i hg
    injection h with h4
    exact ⟨not_ne_iff.mp hg, h4.symm⟩

lemma submit_ok_of_new {pubReg : PubState} {s : NewsState} {c ch : Nat}
    {u : String} {pb now : Nat} (h : (s.articles ch).createdAt = 0) :
    submitArticle pubReg s c ch u pb now
      = .ok (submitNew pubReg s c ch u pb now) := by
  simp [submitArticle, h]

lemma submit_err_of_existing {pubReg : PubState} {s : NewsState} {c ch : Nat}
    {u : String} {pb now : Nat} (h : (s.articles ch).createdAt ≠ 0) :
    submitArticle pubReg s c ch u pb now = .error .DuplicateSubmission := by
  simp [submitArticle, h]

lemma setParams_eq_ok {s : NewsState} {c vp mv : Nat} {s' : NewsState}
    (h : setVotingParams s c vp mv = .ok s') :
    c = s.owner ∧ s' = { s with votingPeriod := vp, minVotes := mv } := by
  unfold setVotingParams at h
  split at h
  · exact Except.noConfusion h
  · rename_i hg
    injection h with h4
    exact ⟨not_ne_iff.mp hg, h4.symm⟩

lemma addPublisher_eq_ok {s : PubState} {c p : Nat} {s' : PubState}
    (h : addPublisher s c p = .ok s') :
    c = s.owner ∧ s.isTrusted p = false ∧
    s' = { s with
      isTrusted := fun q => if q = p then true else s.isTrusted q,
      events := s.events ++ [.PublisherAdded p] } := by
  unfold addPublisher at h
  split at h
  · exact Except.noConfusion h
  · split at h
    · exact Except.noConfusion h
    · rename_i hg ht
      injection h with h4
      exact ⟨not_ne_iff.mp hg, by simpa using ht, h4.symm⟩

lemma removePublisher_eq_ok {s : PubState} {c p : Nat} {s' : PubState}
    (h : removePublisher s c p = .ok s') :
    c = s.owner ∧ s.isTrusted p = true ∧
    s' = { s with
      isTrusted := fun q => if q = p then false else s.isTrusted q,
      events := s.events ++ [.PublisherRemoved p] } := by
  unfold removePublisher at h
  split at h
  · exact Except.noConfusion h
  · split at h
    · rename_i hg ht
      injection h with h4
      exact ⟨not_ne_iff.mp hg, ht, h4.symm⟩
    · exact Except.noConfusion h

/-! ### Preservation lemmas over system transitions -/

lemma applyOps_cons (σ : Sys) (op : Op) (ops : List Op) :
    applyOps σ (op :: ops) = applyOps (applyOp σ op) ops := rfl

lemma hasVoted_mono (σ : Sys) (op : Op) (ch v : Nat)
    (h : σ.news.hasVoted ch v = true) :
    (applyOp σ op).news.hasVoted ch v = true := by
  cases op with
  | submit c ch2 u pb now =>
      cases hres : submitArticle σ.pub σ.news c ch2 u pb now with
      | error e => simpa [applyOp, hres] using h
      | ok n =>
          obtain ⟨h0, rfl⟩ := submit_eq_ok hres
          simp only [applyOp, hres]
          unfold NewsState.hasVoted at h ⊢
          rw [submitNew_voters]
          exact h
  | castVote c ch2 b now =>
      cases hres : vote σ.news c ch2 b now with
      | error e => simpa [applyOp, hres] using h
      | ok n =>
          obtain ⟨h1, h2, h3, rfl⟩ := vote_eq_ok hres
          simp only [applyOp, hres]
          unfold NewsState.hasVoted at h ⊢
          by_cases hch : ch = ch2
          · subst hch
            rw [voteNew_voters_self]
            simp only [decide_eq_true_eq] at h ⊢
            exact Finset.mem_insert_of_mem h
          · rw [voteNew_voters_ne _ _ _ _ _ _ hch]
            exact h
  | setParams c vp mv =>
      cases hres : setVotingParams σ.news c vp mv with
      | error e => simpa [applyOp, hres] using h
      | ok n =>
          obtain ⟨h0, rfl⟩ := setParams_eq_ok hres
          simpa [applyOp, hres, NewsState.hasVoted] using h
  | addPub c p =>
      cases hres : addPublisher σ.pub c p with
      | error e => simpa [applyOp, hres] using h
      | ok n => simpa [applyOp, hres] using h
  | removePub c p =>
      cases hres : removePublisher σ.pub c p with
      | error e => simpa [applyOp, hres] using h
      | ok n => simpa [applyOp, hres] using h

lemma hasVoted_mono_ops (σ : Sys) (ops : List Op) (ch v : Nat)
    (h : σ.news.hasVoted ch v = true) :
    (applyOps σ ops).news.hasVoted ch v = true := by
  induction ops generalizing σ with
  | nil => exact h
  | cons op rest ih => exact ih _ (hasVoted_mono σ op ch v h)

lemma createdAt_stable (σ : Sys) (op : Op) (ch : Nat)
    (h : (σ.news.articles ch).createdAt ≠ 0) :
    ((applyOp σ op).news.articles ch).createdAt = (σ.news.articles ch).createdAt := by
  cases op with
  | submit c ch2 u pb now =>
      by_cases hch : ch2 = ch
      · subst hch
        simp [applyOp, submit_err_of_existing h]
      · cases hres : submitArticle σ.pub σ.news c ch2 u pb now with
        | error e => simp [applyOp, hres]
        | ok n =>
            obtain ⟨h0, rfl⟩ := submit_eq_ok hres
            simp only [applyOp, hres]
            rw [submitNew_articles_ne _ _ _ _ _ _ _ _ (Ne.symm hch)]
  | castVote c ch2 b now =>
      cases hres : vote σ.news c ch2 b now with
      | error e => simp [applyOp, hres]
      | ok n =>
          obtain ⟨h1, h2, h3, rfl⟩ := vote_eq_ok hres
          simp only [applyOp, hres]
          by_cases hch : ch = ch2
          · subst hch
            rw [voteNew_articles_self, votedArticle_createdAt]
          · rw [voteNew_articles_ne _ _ _ _ _ _ hch]
  | setParams c vp mv =>
      cases hres : setVotingParams σ.news c vp mv with
      | error e => simp [applyOp, hres]
      | ok n =>
          obtain ⟨h0, rfl⟩ := setParams_eq_ok hres
          simp [applyOp, hres]
  | addPub c p =>
      cases hres : addPublisher σ.pub c p with
      | error e => simp [applyOp, hres]
      | ok n => simp [applyOp, hres]
  | removePub c p =>
      cases hres : removePublisher σ.pub c p with
      | error e => simp [applyOp, hres]
      | ok n => simp [applyOp, hres]

lemma createdAt_ne_zero_ops (σ : Sys) (ops : List Op) (ch : Nat)
    (h : (σ.news.articles ch).createdAt ≠ 0) :
    ((applyOps σ ops).news.articles ch).createdAt ≠ 0 := by
  induction ops generalizing σ with
  | nil => exact h
  | cons op rest ih =>
      refine ih (applyOp σ op) ?_
      rw [createdAt_stable σ op ch h]
      exact h

lemma frozen_op (σ : Sys) (op : Op) (ch : Nat)
    (hfin : (σ.news.articles ch).finalized = true)
    (hcr : (σ.news.articles ch).createdAt ≠ 0) :
    (applyOp σ op).news.articles ch = σ.news.articles ch ∧
    (applyOp σ op).news.voters ch = σ.news.voters ch := by
  cases op with
  | submit c ch2 u pb now =>
      by_cases hch : ch2 = ch
      · subst hch
        simp [applyOp, submit_err_of_existing hcr]
      · cases hres : submitArticle σ.pub σ.news c ch2 u pb now with
        | error e => simp [applyOp, hres]
        | ok n =>
            obtain ⟨h0, rfl⟩ := submit_eq_ok hres
            simp only [applyOp, hres]
            rw [submitNew_articles_ne _ _ _ _ _ _ _ _ (Ne.symm hch), submitNew_voters]
            exact ⟨rfl, rfl⟩
  | castVote c ch2 b now =>
      by_cases hch : ch2 = ch
      · subst hch
        simp [applyOp, vote_err_finalized b now hcr hfin]
      · cases hres : vote σ.news c ch2 b now with
        | error e => simp [applyOp, hres]
        | ok n =>
            obtain ⟨h1, h2, h3, rfl⟩ := vote_eq_ok hres
            simp only [applyOp, hres]
            rw [voteNew_articles_ne _ _ _ _ _ _ (Ne.symm hch),
              voteNew_voters_ne _ _ _ _ _ _ (Ne.symm hch)]
            exact ⟨rfl, rfl⟩
  | setParams c vp mv =>
      cases hres : setVotingParams σ.news c vp mv with
      | error e => simp [applyOp, hres]
      | ok n =>
          obtain ⟨h0, rfl⟩ := setParams_eq_ok hres
          simp [applyOp, hres]
  | addPub c p =>
      cases hres : addPublisher σ.pub c p with
      | error e => simp [applyOp, hres]
      | ok n => simp [applyOp, hres]
  | removePub c p =>
      cases hres : removePublisher σ.pub c p with
      | error e => simp [applyOp, hres]
      | ok n => simp [applyOp, hres]

lemma frozen_ops (σ : Sys) (ops : List Op) (ch : Nat)
    (hfin : (σ.news.articles ch).finalized = true)
    (hcr : (σ.news.articles ch).createdAt ≠ 0) :
    (applyOps σ ops).news.articles ch = σ.news.articles ch ∧
    (applyOps σ ops).news.voters ch = σ.news.voters ch := by
  induction ops generalizing σ with
  | nil => exact ⟨rfl, rfl⟩
  | cons op rest ih =>
      have h1 := frozen_op σ op ch hfin hcr
      have h2 := ih (applyOp σ op) (by rw [h1.1]; exact hfin) (by rw [h1.1]; exact hcr)
      exact ⟨h1.1 ▸ h2.1, h1.2 ▸ h2.2⟩

/-! ### The reachability invariant -/

lemma inv_init (pd nd vp mv : Nat) :
    Inv ⟨PubState.init pd, NewsState.init nd vp mv⟩ := by
  intro ch
  refine ⟨by simp [NewsState.init, defaultArticle], fun _ => ⟨rfl, rfl⟩, fun hf => ?_⟩
  simp [NewsState.init, defaultArticle] at hf

lemma inv_step (σ : Sys) (op : Op) (ht : op.timeOk) (hinv : Inv σ) :
    Inv (applyOp σ op) := by
  cases op with
  | submit c ch2 u pb now =>
      cases hres : submitArticle σ.pub σ.news c ch2 u pb now with
      | error e => simpa [applyOp, hres] using hinv
      | ok n =>
          obtain ⟨h0, rfl⟩ := submit_eq_ok hres
          obtain ⟨hdef, hvot⟩ := (hinv ch2).2.1 h0
          intro ch
          simp only [applyOp, hres]
          by_cases hch : ch = ch2
          · subst hch
            have hcre : ((submitNew σ.pub σ.news c ch u pb now).articles ch).createdAt
                = now := by
              rw [submitNew_articles_self]
              by_cases hav : autoVerifies σ.pub pb <;> simp [hav, newArticle]
            have hnow : now ≠ 0 := by
              simp only [Op.timeOk] at ht
              omega
            refine ⟨?_, fun hc => absurd (hcre.symm.trans hc) hnow,
              fun _ => by rw [hcre]; exact hnow⟩
            rw [submitNew_articles_self]
            have hv0 : (submitNew σ.pub σ.news c ch u pb now).voters = σ.news.voters :=
              submitNew_voters _ _ _ _ _ _ _
            rw [hv0, hvot]
            by_cases hav : autoVerifies σ.pub pb <;>
              simp [hav, newArticle, hdef, defaultArticle]
          · have ha := submitNew_articles_ne σ.pub σ.news c ch2 u pb now ch hch
            have hv0 : (submitNew σ.pub σ.news c ch2 u pb now).voters = σ.news.voters :=
              submitNew_voters _ _ _ _ _ _ _
            rw [ha, hv0]
            exact hinv ch
  | castVote c ch2 b now =>
      cases hres : vote σ.news c ch2 b now with
      | error e => simpa [applyOp, hres] using hinv
      | ok n =>
          obtain ⟨h1, h2, h3, rfl⟩ := vote_eq_ok hres
          intro ch
          simp only [applyOp, hres]
          by_cases hch : ch = ch2
          · subst hch
            have hcre : ((voteNew σ.news c ch b now).articles ch).createdAt
                = (σ.news.articles ch).createdAt := by
              rw [voteNew_articles_self, votedArticle_createdAt]
            refine ⟨?_, fun hc => absurd (hcre.symm.trans hc) h1,
              fun _ => by rw [hcre]; exact h1⟩
            rw [voteNew_articles_self, voteNew_voters_self]
            have hc := votedArticle_counts σ.news ch b now
            rw [hc.1, hc.2, countVote_yes_add_no]
            have hnot : c ∉ σ.news.voters ch := by
              simpa [NewsState.hasVoted] using h3
            rw [Finset.card_insert_of_not_mem hnot, (hinv ch).1]
          · rw [voteNew_articles_ne _ _ _ _ _ _ hch, voteNew_voters_ne _ _ _ _ _ _ hch]
            exact hinv ch
  | setParams c vp mv =>
      cases hres : setVotingParams σ.news c vp mv with
      | error e => simpa [applyOp, hres] using hinv
      | ok n =>
          obtain ⟨h0, rfl⟩ := setParams_eq_ok hres
          intro ch
          simpa [applyOp, hres] using hinv ch
  | addPub c p =>
      cases hres : addPublisher σ.pub c p with
      | error e => simpa [applyOp, hres] using hinv
      | ok n =>
          intro ch
          simpa [applyOp, hres] using hinv ch
  | removePub c p =>
      cases hres : removePublisher σ.pub c p with
      | error e => simpa [applyOp, hres] using hinv
      | ok n =>
          intro ch
          simpa [applyOp, hres] using hinv ch

lemma reachable_inv {σ : Sys} (hr : Reachable σ) : Inv σ := by
  induction hr with
  | init pd nd vp mv => exact inv_init pd nd vp mv
  | step σ op hσ ht ih => exact inv_step σ op ht ih

lemma submitNew_events_pos {pubReg : PubState} (s : NewsState) (c ch : Nat)
    (u : String) {pb : Nat} (now : Nat) (hav : autoVerifies pubReg pb) :
    (submitNew pubReg s c ch u pb now).events
      = s.events ++ [.PublisherAutoVerified ch, .Finalized ch .VerifiedTrue] := by
  unfold submitNew
  rw [if_pos hav]

lemma submitNew_events_neg {pubReg : PubState} (s : NewsState) (c ch : Nat)
    (u : String) {pb : Nat} (now : Nat) (hav : ¬ autoVerifies pubReg pb) :
    (submitNew pubReg s c ch u pb now).events
      = s.events ++ [.Submitted ch c u] := by
  unfold submitNew
  rw [if_neg hav]

/-! ### The claims -/

/-- Claim C1: a successful `vote` call finalizes the article if and only if,
after the vote is counted, `yesVotes + noVotes ≥ minVotes` and the current
ledger time is at least `createdAt + votingPeriod`; both conditions are
conjunctive, so quorum before the window does not finalize and the window
without quorum does not finalize. -/
theorem vote_finalizes_iff (s : NewsState) (c ch : Nat) (b : Bool) (now : Nat)
    (s' : NewsState) (hok : vote s c ch b now = .ok s') :
    (s'.articles ch).finalized = true ↔
      (s.minVotes ≤ (s'.articles ch).yesVotes + (s'.articles ch).noVotes
       ∧ (s.articles ch).createdAt + s.votingPeriod ≤ now) := by
  obtain ⟨h1, h2, h3, rfl⟩ := vote_eq_ok hok
  rw [voteNew_articles_self]
  have hc := votedArticle_counts s ch b now
  rw [votedArticle_finalized s ch b now h2, hc.1, hc.2]
  unfold shouldFinalize
  simp only [decide_eq_true_eq, countVote_createdAt]

/-- Claim C1 witness: for the concrete deployment with `minVotes = 1` and
`votingPeriod = 60`, the vote at `createdAt + 10` satisfies the
equivalence (and indeed does not finalize, since `61 ≤ 11` fails). -/
theorem vote_finalizes_iff_witness :
    (news2.articles 5).finalized = true ↔
      (news1.minVotes ≤ (news2.articles 5).yesVotes + (news2.articles 5).noVotes
       ∧ (news1.articles 5).createdAt + news1.votingPeriod ≤ 11) :=
  vote_finalizes_iff news1 8 5 true 11 news2 rfl

/-- Claim C2: whenever a `vote` call finalizes an article, the final status
is the simple plurality of the counters at that moment: more yes than no
gives `VerifiedTrue`, more no than yes gives `MarkedFake`, a tie gives
`Disputed`. -/
theorem vote_verdict (s : NewsState) (c ch : Nat) (b : Bool) (now : Nat)
    (s' : NewsState) (hok : vote s c ch b now = .ok s')
    (hfin : (s'.articles ch).finalized = true) :
    ((s'.articles ch).noVotes < (s'.articles ch).yesVotes →
        (s'.articles ch).status = .VerifiedTrue)
    ∧ ((s'.articles ch).yesVotes < (s'.articles ch).noVotes →
        (s'.articles ch).status = .MarkedFake)
    ∧ ((s'.articles ch).yesVotes = (s'.articles ch).noVotes →
        (s'.articles ch).status = .Disputed) := by
  obtain ⟨h1, h2, h3, rfl⟩ := vote_eq_ok hok
  rw [voteNew_articles_self] at hfin ⊢
  have hsf : shouldFinalize s (countVote (s.articles ch) b) now = true := by
    rw [← votedArticle_finalized s ch b now h2]
    exact hfin
  unfold votedArticle
  rw [if_pos hsf]
  refine ⟨fun h => ?_, fun h => ?_, fun h => ?_⟩
  · simp only [finalizeArt] at h ⊢
    simp [verdict, h]
  · simp only [finalizeArt] at h ⊢
    unfold verdict
    rw [if_neg (by omega), if_pos h]
  · simp only [finalizeArt] at h ⊢
    unfold verdict
    rw [if_neg (by omega), if_neg (by omega)]

/-- Claim C2 witness: the finalizing vote at time 62 on the article
submitted at time 1 (one earlier yes vote, one new yes vote) satisfies the
three verdict implications; its counters are 2 yes, 0 no, so the first
implication applies and the stored status is `VerifiedTrue`. -/
theorem vote_verdict_witness :
    ((news3.articles 5).noVotes < (news3.articles 5).yesVotes →
        (news3.articles 5).status = .VerifiedTrue)
    ∧ ((news3.articles 5).yesVotes < (news3.articles 5).noVotes →
        (news3.articles 5).status = .MarkedFake)
    ∧ ((news3.articles 5).yesVotes = (news3.articles 5).noVotes →
        (news3.articles 5).status = .Disputed) :=
  vote_verdict news2 9 5 true 62 news3 rfl rfl

/-- Claim C3: submitting a fresh fingerprint with a non-zero claimed
publisher that the trust registry marks trusted immediately yields a
finalized `VerifiedTrue` article with zero vote counters and no vote
records, and every successful submission emits exactly one of the
auto-verified or plain submitted notifications, never both. -/
theorem submit_auto_verified (σ : Sys) (hr : Reachable σ) (c ch : Nat)
    (u : String) (pb now : Nat) (hnew : (σ.news.articles ch).createdAt = 0)
    (hpb : pb ≠ 0) (htr : σ.pub.isTrusted pb = true) :
    (∃ s', submitArticle σ.pub σ.news c ch u pb now = .ok s'
      ∧ (s'.articles ch).finalized = true
      ∧ (s'.articles ch).status = .VerifiedTrue
      ∧ (s'.articles ch).yesVotes = 0
      ∧ (s'.articles ch).noVotes = 0
      ∧ s'.voters ch = ∅
      ∧ s'.events = σ.news.events
          ++ [.PublisherAutoVerified ch, .Finalized ch .VerifiedTrue])
    ∧ (∀ (p2 : PubState) (s2 : NewsState) (c2 ch2 : Nat) (u2 : String)
          (pb2 now2 : Nat) (s2' : NewsState),
        submitArticle p2 s2 c2 ch2 u2 pb2 now2 = .ok s2' →
        ∃ evs, s2'.events = s2.events ++ evs
          ∧ ((Event.PublisherAutoVerified ch2 ∈ evs
                ∧ Event.Submitted ch2 c2 u2 ∉ evs)
             ∨ (Event.Submitted ch2 c2 u2 ∈ evs
                ∧ Event.PublisherAutoVerified ch2 ∉ evs))) := by
  have hinv := reachable_inv hr
  obtain ⟨hdef, hvot⟩ := (hinv ch).2.1 hnew
  have hav : autoVerifies σ.pub pb := ⟨hpb, htr⟩
  constructor
  · refine ⟨submitNew σ.pub σ.news c ch u pb now, submit_ok_of_new hnew,
      ?_, ?_, ?_, ?_, ?_, ?_⟩
    · rw [submitNew_articles_self, if_pos hav]
    · rw [submitNew_articles_self, if_pos hav]
    · rw [submitNew_articles_self, if_pos hav]
      simp [newArticle, hdef, defaultArticle]
    · rw [submitNew_articles_self, if_pos hav]
      simp [newArticle, hdef, defaultArticle]
    · rw [submitNew_voters]
      exact hvot
    · exact submitNew_events_pos σ.news c ch u now hav
  · intro p2 s2 c2 ch2 u2 pb2 now2 s2' h2
    obtain ⟨h0, rfl⟩ := submit_eq_ok h2
    by_cases hav2 : autoVerifies p2 pb2
    · refine ⟨[.PublisherAutoVerified ch2, .Finalized ch2 .VerifiedTrue],
        submitNew_events_pos s2 c2 ch2 u2 now2 hav2, Or.inl ⟨?_, ?_⟩⟩ <;> simp
    · refine ⟨[.Submitted ch2 c2 u2],
        submitNew_events_neg s2 c2 ch2 u2 now2 hav2, Or.inr ⟨?_, ?_⟩⟩ <;> simp

/-- Claim C3 witness: in the reachable state where the owner has trusted
publisher 2 and hash 6 is unsubmitted, submitting hash 6 claiming
publisher 2 at time 1 auto-verifies as stated. -/
theorem submit_auto_verified_witness :
    (∃ s', submitArticle pub1 news0 7 6 "v" 2 1 = .ok s'
      ∧ (s'.articles 6).finalized = true
      ∧ (s'.articles 6).status = .VerifiedTrue
      ∧ (s'.articles 6).yesVotes = 0
      ∧ (s'.articles 6).noVotes = 0
      ∧ s'.voters 6 = ∅
      ∧ s'.events = news0.events
          ++ [.PublisherAutoVerified 6, .Finalized 6 .VerifiedTrue])
    ∧ (∀ (p2 : PubState) (s2 : NewsState) (c2 ch2 : Nat) (u2 : String)
          (pb2 now2 : Nat) (s2' : NewsState),
        submitArticle p2 s2 c2 ch2 u2 pb2 now2 = .ok s2' →
        ∃ evs, s2'.events = s2.events ++ evs
          ∧ ((Event.PublisherAutoVerified ch2 ∈ evs
                ∧ Event.Submitted ch2 c2 u2 ∉ evs)
             ∨ (Event.Submitted ch2 c2 u2 ∈ evs
                ∧ Event.PublisherAutoVerified ch2 ∉ evs))) := by
  refine submit_auto_verified ⟨pub1, news0⟩ ?_ 7 6 "v" 2 1 rfl (by decide) rfl
  exact Reachable.step ⟨pub0, news0⟩ (Op.addPub 1 2) (Reachable.init 1 1 60 1) trivial

/-- Claim C4: after one successful submission of a fingerprint, any further
submission of the same fingerprint by any caller, in any later state,
fails with `DuplicateSubmission` and leaves the state unchanged; the
original record keeps the submitter and creation time of the first call. -/
theorem submit_duplicate_rejected (pubReg : PubState) (s : NewsState)
    (c ch : Nat) (u : String) (pb now : Nat) (s' : NewsState) (hnow : 0 < now)
    (hok : submitArticle pubReg s c ch u pb now = .ok s') :
    (s'.articles ch).submitter = c
    ∧ (s'.articles ch).createdAt = now
    ∧ (∀ (p2 p3 : PubState) (ops : List Op) (c2 : Nat) (u2 : String)
          (pb2 now2 : Nat),
        submitArticle p3 (applyOps ⟨p2, s'⟩ ops).news c2 ch u2 pb2 now2
          = .error .DuplicateSubmission)
    ∧ (∀ (p2 : PubState) (c2 : Nat) (u2 : String) (pb2 now2 : Nat),
        applyOp ⟨p2, s'⟩ (Op.submit c2 ch u2 pb2 now2) = ⟨p2, s'⟩) := by
  obtain ⟨h0, rfl⟩ := submit_eq_ok hok
  have hsub : ((submitNew pubReg s c ch u pb now).articles ch).submitter = c := by
    rw [submitNew_articles_self]
    by_cases hav : autoVerifies pubReg pb <;> simp [hav, newArticle]
  have hcre : ((submitNew pubReg s c ch u pb now).articles ch).createdAt = now := by
    rw [submitNew_articles_self]
    by_cases hav : autoVerifies pubReg pb <;> simp [hav, newArticle]
  have hne : ((submitNew pubReg s c ch u pb now).articles ch).createdAt ≠ 0 := by
    rw [hcre]
    omega
  refine ⟨hsub, hcre, ?_, ?_⟩
  · intro p2 p3 ops c2 u2 pb2 now2
    exact submit_err_of_existing
      (createdAt_ne_zero_ops ⟨p2, submitNew pubReg s c ch u pb now⟩ ops ch hne)
  · intro p2 c2 u2 pb2 now2
    simp [applyOp, submit_err_of_existing hne]

/-- Claim C4 witness: after the successful submission of hash 5 at time 1,
the resulting record has submitter 7 and creation time 1, and every later
resubmission of hash 5 fails with `DuplicateSubmission` without changing
state. -/
theorem submit_duplicate_rejected_witness :
    (news1.articles 5).submitter = 7
    ∧ (news1.articles 5).createdAt = 1
    ∧ (∀ (p2 p3 : PubState) (ops : List Op) (c2 : Nat) (u2 : String)
          (pb2 now2 : Nat),
        submitArticle p3 (applyOps ⟨p2, news1⟩ ops).news c2 5 u2 pb2 now2
          = .error .DuplicateSubmission)
    ∧ (∀ (p2 : PubState) (c2 : Nat) (u2 : String) (pb2 now2 : Nat),
        applyOp ⟨p2, news1⟩ (Op.submit c2 5 u2 pb2 now2) = ⟨p2, news1⟩) :=
  submit_duplicate_rejected pub0 news0 7 5 "u" 0 1 news1 (by decide) rfl

/-- Claim C5: `vote` fails with `NotFound` when no record exists, with
`AlreadyFinalized` on a finalized record, and with `DuplicateVote` when the
caller already voted; a successful vote records the voter and increments
exactly one counter by one, and afterwards no vote by the same caller on
the same article ever succeeds again (a failed vote leaves the state
unchanged, as `applyOp` keeps the pre-state on error). -/
theorem vote_at_most_once (s : NewsState) (c ch : Nat) (b : Bool) (now : Nat) :
    ((s.articles ch).createdAt = 0 → vote s c ch b now = .error .NotFound)
    ∧ ((s.articles ch).createdAt ≠ 0 → (s.articles ch).finalized = true →
        vote s c ch b now = .error .AlreadyFinalized)
    ∧ ((s.articles ch).createdAt ≠ 0 → (s.articles ch).finalized = false →
        s.hasVoted ch c = true → vote s c ch b now = .error .DuplicateVote)
    ∧ (∀ s', vote s c ch b now = .ok s' →
        s'.hasVoted ch c = true
        ∧ (b = true → (s'.articles ch).yesVotes = (s.articles ch).yesVotes + 1
            ∧ (s'.articles ch).noVotes = (s.articles ch).noVotes)
        ∧ (b = false → (s'.articles ch).noVotes = (s.articles ch).noVotes + 1
            ∧ (s'.articles ch).yesVotes = (s.articles ch).yesVotes)
        ∧ (∀ (p : PubState) (ops : List Op) (b2 : Bool) (now2 : Nat),
            ∃ e, vote (applyOps ⟨p, s'⟩ ops).news c ch b2 now2 = .error e)) := by
  refine ⟨fun h => by simp [vote, h], fun h1 h2 => vote_err_finalized b now h1 h2,
    fun h1 h2 h3 => by simp [vote, h1, h2, h3], ?_⟩
  intro s' hok
  obtain ⟨h1, h2, h3, rfl⟩ := vote_eq_ok hok
  have hvoted : (voteNew s c ch b now).hasVoted ch c = true := by
    unfold NewsState.hasVoted
    rw [voteNew_voters_self]
    simp
  have hcounts := votedArticle_counts s ch b now
  refine ⟨hvoted, ?_, ?_, ?_⟩
  · intro hb
    subst hb
    rw [voteNew_articles_self, hcounts.1, hcounts.2]
    exact ⟨rfl, rfl⟩
  · intro hb
    subst hb
    rw [voteNew_articles_self, hcounts.1, hcounts.2]
    exact ⟨rfl, rfl⟩
  · intro p ops b2 now2
    exact vote_err_of_hasVoted _ c ch b2 now2
      (hasVoted_mono_ops ⟨p, voteNew s c ch b now⟩ ops ch c hvoted)

/-- Claim C5 witness: the successful yes vote by voter 8 on hash 5 at time
11 records the voter, increments only `yesVotes`, and blocks every later
vote by voter 8 on hash 5 in any continuation. -/
theorem vote_at_most_once_witness :
    news2.hasVoted 5 8 = true
    ∧ (true = true → (news2.articles 5).yesVotes = (news1.articles 5).yesVotes + 1
        ∧ (news2.articles 5).noVotes = (news1.articles 5).noVotes)
    ∧ (true = false → (news2.articles 5).noVotes = (news1.articles 5).noVotes + 1
        ∧ (news2.articles 5).yesVotes = (news1.articles 5).yesVotes)
    ∧ (∀ (p : PubState) (ops : List Op) (b2 : Bool) (now2 : Nat),
        ∃ e, vote (applyOps ⟨p, news2⟩ ops).news 8 5 b2 now2 = .error e) :=
  (vote_at_most_once news1 8 5 true 11).2.2.2 news2 rfl

/-- Claim C6: finalization is monotonic: on a finalized article every
subsequent `vote` fails with `AlreadyFinalized`, and under any sequence of
further operations the article stays finalized with an unchanged status
(so the flag only ever moves from false to true). -/
theorem finalization_monotonic (σ : Sys) (hr : Reachable σ) (ch : Nat)
    (hfin : (σ.news.articles ch).finalized = true) :
    (∀ (c : Nat) (b : Bool) (now : Nat),
        vote σ.news c ch b now = .error .AlreadyFinalized)
    ∧ (∀ ops : List Op,
        ((applyOps σ ops).news.articles ch).finalized = true
        ∧ ((applyOps σ ops).news.articles ch).status
            = (σ.news.articles ch).status) := by
  have hcr := (reachable_inv hr ch).2.2 hfin
  refine ⟨fun c b now => vote_err_finalized b now hcr hfin, fun ops => ?_⟩
  have h := frozen_ops σ ops ch hfin hcr
  rw [h.1]
  exact ⟨hfin, rfl⟩

/-- Claim C6 witness: the auto-verified article 6 rejects every vote with
`AlreadyFinalized` and keeps its finalized flag and status under every
sequence of further operations. -/
theorem finalization_monotonic_witness :
    (∀ (c : Nat) (b : Bool) (now : Nat),
        vote newsT c 6 b now = .error .AlreadyFinalized)
    ∧ (∀ ops : List Op,
        ((applyOps ⟨pub1, newsT⟩ ops).news.articles 6).finalized = true
        ∧ ((applyOps ⟨pub1, newsT⟩ ops).news.articles 6).status
            = (newsT.articles 6).status) := by
  refine finalization_monotonic ⟨pub1, newsT⟩ ?_ 6 rfl
  refine Reachable.step ⟨pub1, news0⟩ (Op.submit 7 6 "v" 2 1) ?_ (by exact Nat.one_pos)
  exact Reachable.step ⟨pub0, news0⟩ (Op.addPub 1 2) (Reachable.init 1 1 60 1) trivial

/-- Claim C7: `addPublisher`, `removePublisher` and `setVotingParams`
invoked by any caller other than the owner of the respective contract fail
with `Unauthorized` and change no state. -/
theorem owner_gating (ps : PubState) (ns : NewsState) (c p vp mv : Nat)
    (hp : c ≠ ps.owner) (hn : c ≠ ns.owner) :
    addPublisher ps c p = .error .Unauthorized
    ∧ removePublisher ps c p = .error .Unauthorized
    ∧ setVotingParams ns c vp mv = .error .Unauthorized
    ∧ applyOp ⟨ps, ns⟩ (Op.addPub c p) = ⟨ps, ns⟩
    ∧ applyOp ⟨ps, ns⟩ (Op.removePub c p) = ⟨ps, ns⟩
    ∧ applyOp ⟨ps, ns⟩ (Op.setParams c vp mv) = ⟨ps, ns⟩ := by
  have ha : addPublisher ps c p = .error .Unauthorized := by
    simp [addPublisher, hp]
  have hrm : removePublisher ps c p = .error .Unauthorized := by
    simp [removePublisher, hp]
  have hs : setVotingParams ns c vp mv = .error .Unauthorized := by
    simp [setVotingParams, hn]
  exact ⟨ha, hrm, hs, by simp [applyOp, ha], by simp [applyOp, hrm],
    by simp [applyOp, hs]⟩

/-- Claim C7 witness: caller 9 is not the owner (address 1) of either
freshly deployed contract, so all three admin calls revert with
`Unauthorized` and leave the system unchanged. -/
theorem owner_gating_witness :
    addPublisher pub0 9 3 = .error .Unauthorized
    ∧ removePublisher pub0 9 3 = .error .Unauthorized
    ∧ setVotingParams news0 9 10 2 = .error .Unauthorized
    ∧ applyOp ⟨pub0, news0⟩ (Op.addPub 9 3) = ⟨pub0, news0⟩
    ∧ applyOp ⟨pub0, news0⟩ (Op.removePub 9 3) = ⟨pub0, news0⟩
    ∧ applyOp ⟨pub0, news0⟩ (Op.setParams 9 10 2) = ⟨pub0, news0⟩ :=
  owner_gating pub0 news0 9 3 10 2 (by decide) (by decide)

/-- Claim C8: an owner call of `addPublisher` fails with `AlreadyTrusted`
exactly when the address is already a member, and `removePublisher` fails
with `NotTrusted` exactly when it is not; on success membership is set to
true respectively false with the owner and all other entries unchanged. -/
theorem trust_membership (ps : PubState) (c p q : Nat) (hc : c = ps.owner) :
    (ps.isTrusted p = true → addPublisher ps c p = .error .AlreadyTrusted)
    ∧ (ps.isTrusted p = false → ∃ ps', addPublisher ps c p = .ok ps'
        ∧ ps'.isTrusted p = true ∧ ps'.owner = ps.owner
        ∧ ∀ r, r ≠ p → ps'.isTrusted r = ps.isTrusted r)
    ∧ (ps.isTrusted q = false → removePublisher ps c q = .error .NotTrusted)
    ∧ (ps.isTrusted q = true → ∃ ps', removePublisher ps c q = .ok ps'
        ∧ ps'.isTrusted q = false ∧ ps'.owner = ps.owner
        ∧ ∀ r, r ≠ q → ps'.isTrusted r = ps.isTrusted r) := by
  refine ⟨fun ht => ?_, fun ht => ?_, fun ht => ?_, fun ht => ?_⟩
  · simp [addPublisher, hc, ht]
  · refine ⟨{ ps with
        isTrusted := fun r => if r = p then true else ps.isTrusted r,
        events := ps.events ++ [.PublisherAdded p] }, ?_, by simp, rfl,
      fun r hr => by simp [hr]⟩
    simp [addPublisher, hc, ht]
  · simp [removePublisher, hc, ht]
  · refine ⟨{ ps with
        isTrusted := fun r => if r = q then false else ps.isTrusted r,
        events := ps.events ++ [.PublisherRemoved q] }, ?_, by simp, rfl,
      fun r hr => by simp [hr]⟩
    simp [removePublisher, hc, ht]

/-- Claim C8 witness: with owner 1 of `pub1` (which trusts address 2 and
not address 4), adding 4 succeeds as described, and the four implications
hold at these concrete addresses. -/
theorem trust_membership_witness :
    (pub1.isTrusted 4 = true → addPublisher pub1 1 4 = .error .AlreadyTrusted)
    ∧ (pub1.isTrusted 4 = false → ∃ ps', addPublisher pub1 1 4 = .ok ps'
        ∧ ps'.isTrusted 4 = true ∧ ps'.owner = pub1.owner
        ∧ ∀ r, r ≠ 4 → ps'.isTrusted r = pub1.isTrusted r)
    ∧ (pub1.isTrusted 2 = false → removePublisher pub1 1 2 = .error .NotTrusted)
    ∧ (pub1.isTrusted 2 = true → ∃ ps', removePublisher pub1 1 2 = .ok ps'
        ∧ ps'.isTrusted 2 = false ∧ ps'.owner = pub1.owner
        ∧ ∀ r, r ≠ 2 → ps'.isTrusted r = pub1.isTrusted r) :=
  trust_membership pub1 1 4 2 rfl

/-- Claim C9: `getArticle` is a pure read (a function of the state with no
state output in this embedding, available to any caller): it returns the
full stored record, and on a fingerprint with no record it returns the
zero-initialised not-found sentinel record (`createdAt = 0`). -/
theorem getArticle_pure_read (σ : Sys) (hr : Reachable σ) (ch : Nat) :
    getArticle σ.news ch = σ.news.articles ch
    ∧ ((σ.news.articles ch).createdAt = 0 →
        getArticle σ.news ch = defaultArticle) :=
  ⟨rfl, fun h => ((reachable_inv hr ch).2.1 h).1⟩

/-- Claim C9 witness: on the fresh deployment, `getArticle` of hash 5
returns the stored record, which is the not-found sentinel. -/
theorem getArticle_pure_read_witness :
    getArticle news0 5 = news0.articles 5
    ∧ ((news0.articles 5).createdAt = 0 → getArticle news0 5 = defaultArticle) :=
  getArticle_pure_read ⟨pub0, news0⟩ (Reachable.init 1 1 60 1) 5

/-- Claim C10: in every reachable state, each article's `yesVotes + noVotes`
equals the number of distinct addresses with a recorded vote on it; in
particular a finalized (e.g. auto-verified) article keeps its counters and
its recorded-voter set unchanged under every sequence of further
operations. -/
theorem counters_match_voters (σ : Sys) (hr : Reachable σ) (ch : Nat) :
    (σ.news.articles ch).yesVotes + (σ.news.articles ch).noVotes
      = (σ.news.voters ch).card
    ∧ ((σ.news.articles ch).finalized = true →
        ∀ ops : List Op,
          ((applyOps σ ops).news.articles ch).yesVotes
              = (σ.news.articles ch).yesVotes
          ∧ ((applyOps σ ops).news.articles ch).noVotes
              = (σ.news.articles ch).noVotes
          ∧ (applyOps σ ops).news.voters ch = σ.news.voters ch) := by
  have hinv := reachable_inv hr
  refine ⟨(hinv ch).1, fun hfin ops => ?_⟩
  have h := frozen_ops σ ops ch hfin ((hinv ch).2.2 hfin)
  rw [h.1, h.2]
  exact ⟨rfl, rfl, rfl⟩

/-- Claim C10 witness: the auto-verified article 6 has counters 0 + 0
matching its empty voter set, and both stay fixed under every sequence of
further operations. -/
theorem counters_match_voters_witness :
    (newsT.articles 6).yesVotes + (newsT.articles 6).noVotes
      = (newsT.voters 6).card
    ∧ ((newsT.articles 6).finalized = true →
        ∀ ops : List Op,
          ((applyOps ⟨pub1, newsT⟩ ops).news.articles 6).yesVotes
              = (newsT.articles 6).yesVotes
          ∧ ((applyOps ⟨pub1, newsT⟩ ops).news.articles 6).noVotes
              = (newsT.articles 6).noVotes
          ∧ (applyOps ⟨pub1, newsT⟩ ops).news.voters 6 = newsT.voters 6) := by
  refine counters_match_voters ⟨pub1, newsT⟩ ?_ 6
  refine Reachable.step ⟨pub1, news0⟩ (Op.submit 7 6 "v" 2 1) ?_ (by exact Nat.one_pos)
  exact Reachable.step ⟨pub0, news0⟩ (Op.addPub 1 2) (Reachable.init 1 1 60 1) trivial

end NewsChain
